import Mathlib

/-!
Verification of the omnivoice-deepgram streaming bridge.

This file shallowly embeds the parts of the repository that the claims
concern:

* `splitIntoSentences` (omnivoice/tts/provider.go, lines 305-346) as a pure
  function on `List Char` (Go `[]rune`), together with a spec-side boundary
  rule and splitter for the refinement claim;
* the guarded channel producer/closer state machines of the TTS callback
  handler (`ttsCallbackHandler.sendChunk`, the goroutine defer of
  `SynthesizeStream`/`SynthesizeFromReader`) and of the STT adapter
  (`callbackHandler.Message` sends, `streamWriter.Close`,
  `streamWriter.Write`);
* the connection-establishment prologues of `TranscribeStream`,
  `SynthesizeStream` and `SynthesizeFromReader`;
* the session-operation traces emitted by the `SynthesizeStream` goroutine
  and the `SynthesizeFromReader` worker loop, and the chunk stream the
  callback handler produces from provider events.

Go `unicode.IsUpper`/`IsLetter`/`IsDigit`/`IsSpace` are modelled by the
corresponding ASCII classifiers `Char.isUpper`/`Char.isAlpha`/
`Char.isDigit`/`Char.isWhitespace`; they agree on the ASCII fragment
exercised by the repository's own tests and examples.

Mutex-protected sections are modelled as atomic actions; an execution of
the concurrent system is a list of such actions (any interleaving of the
mutex-serialized critical sections is some such list).  A Go send on a
closed channel panics even inside a `select` with a `default` arm; the
channel models record that as a `panicked` flag.
-/

namespace OmniVoiceDeepgram

/-! ## Sentence splitter (omnivoice/tts/provider.go, lines 305-346) -/

/-- Line 315: `r == '.' || r == '!' || r == '?'`. -/
def sentencePunct (r : Char) : Bool :=
  r == '.' || r == '!' || r == '?'

/-- Lines 318-330: the `isEndOfSentence` flag computed for `runes[i]`.
It starts `true`; when `r == '.' && i > 0` it is cleared by the
abbreviation guard (`unicode.IsUpper(prevRune) && (i < 2 ||
!unicode.IsLetter(runes[i-2]))`) or by the decimal guard
(`unicode.IsDigit(prevRune) && i+1 < len(runes) &&
unicode.IsDigit(runes[i+1])`). -/
def isEndOfSentence (runes : List Char) (i : Nat) : Bool :=
  if runes.getD i ' ' == '.' && decide (0 < i) then
    !((runes.getD (i - 1) ' ').isUpper &&
        (decide (i < 2) || !(runes.getD (i - 2) ' ').isAlpha)) &&
    !((runes.getD (i - 1) ' ').isDigit &&
        decide (i + 1 < runes.length) && (runes.getD (i + 1) ' ').isDigit)
  else
    true

/-- Line 333: the split actually happens at `i` when `runes[i]` is
sentence punctuation, `isEndOfSentence` holds, and `runes[i]` is followed
by whitespace or end of text (`i+1 >= len(runes) ||
unicode.IsSpace(runes[i+1])`). -/
def boundaryAt (runes : List Char) (i : Nat) : Bool :=
  sentencePunct (runes.getD i ' ') &&
  isEndOfSentence runes i &&
  (decide (runes.length ≤ i + 1) || (runes.getD (i + 1) ' ').isWhitespace)

/-- Lines 309-343: the loop of `splitIntoSentences`.  `rest` is the suffix
of `runes` still to be scanned (`rest = runes.drop i`), `current` the
builder contents, `sentences` the accumulated result.  After the loop,
non-empty remaining text is appended as the last element. -/
def splitLoop (runes : List Char) :
    List Char → Nat → List Char → List (List Char) → List (List Char)
  | [], _, current, sentences =>
    if current.isEmpty then sentences else sentences ++ [current]
  | r :: rest, i, current, sentences =>
    let current' := current ++ [r]
    if boundaryAt runes i then
      splitLoop runes rest (i + 1) [] (sentences ++ [current'])
    else
      splitLoop runes rest (i + 1) current' sentences

/-- The function `splitIntoSentences` (lines 305-346) on the rune list. -/
def splitIntoSentences (text : List Char) : List (List Char) :=
  splitLoop text text 0 [] []

/-- The function `splitIntoSentences` at the `String` interface. -/
def splitIntoSentencesS (s : String) : List String :=
  (splitIntoSentences s.data).map String.mk

/-! ## Spec-side sentence boundary rule

Stated from the specification's words: a candidate boundary is a `.`, `!`,
or `?` followed by whitespace or end-of-input; a `.` is not a boundary if
preceded by a single uppercase letter not itself preceded by a letter, or
if preceded by a digit and followed immediately by a digit. -/

/-- Spec: the `.` at `i` is preceded by a single uppercase letter not
itself preceded by a letter. -/
def specAbbrevGuard (runes : List Char) (i : Nat) : Bool :=
  decide (0 < i) && (runes.getD (i - 1) ' ').isUpper &&
  (decide (i = 1) || !(runes.getD (i - 2) ' ').isAlpha)

/-- Spec: the `.` at `i` is preceded by a digit and followed immediately
by a digit. -/
def specDecimalGuard (runes : List Char) (i : Nat) : Bool :=
  decide (0 < i) && (runes.getD (i - 1) ' ').isDigit &&
  decide (i + 1 < runes.length) && (runes.getD (i + 1) ' ').isDigit

/-- Spec: position `i` is a sentence boundary. -/
def specBoundary (runes : List Char) (i : Nat) : Bool :=
  sentencePunct (runes.getD i ' ') &&
  (decide (runes.length ≤ i + 1) || (runes.getD (i + 1) ' ').isWhitespace) &&
  !((runes.getD i ' ' == '.') && specAbbrevGuard runes i) &&
  !((runes.getD i ' ' == '.') && specDecimalGuard runes i)

/-- Spec-side splitter: cut immediately after every boundary position;
all text after the last boundary (the whole input when there is none) is
the final, possibly incomplete, element. -/
def specChop (runes : List Char) :
    List Char → Nat → List Char → List (List Char)
  | [], _, cur => if cur = [] then [] else [cur]
  | r :: rest, i, cur =>
    if specBoundary runes i then
      (cur ++ [r]) :: specChop runes rest (i + 1) []
    else
      specChop runes rest (i + 1) (cur ++ [r])

/-- Spec-side splitter on a whole rune list. -/
def specSplit (runes : List Char) : List (List Char) :=
  specChop runes runes 0 []

/-- Spec-side splitter at the `String` interface. -/
def specSplitS (s : String) : List String :=
  (specSplit s.data).map String.mk

/-! ### The code boundary test equals the spec boundary rule -/

theorem boolShuffle (p x y w : Bool) :
    (p && (x && y) && w) = (p && w && x && y) := by
  cases p <;> cases x <;> cases y <;> cases w <;> rfl

theorem boundaryAt_eq_specBoundary (runes : List Char) (i : Nat) :
    boundaryAt runes i = specBoundary runes i := by
  unfold boundaryAt specBoundary isEndOfSentence specAbbrevGuard specDecimalGuard
  cases he : (runes.getD i ' ' == '.') with
  | false =>
    simp [he]
  | true =>
    cases i with
    | zero => simp [he]
    | succ j =>
      cases j with
      | zero =>
        simp [he]
        exact boolShuffle _ _ _ _
      | succ k =>
        have h2 : ¬ (k + 1 + 1 < 2) := by omega
        have h1 : ¬ (k + 1 + 1 = 1) := by omega
        simp [he, h1, h2]
        exact boolShuffle _ _ _ _

/-! ### The code loop equals the spec splitter -/

theorem splitLoop_eq_specChop (runes : List Char) :
    ∀ (rest : List Char) (i : Nat) (cur : List Char)
      (acc : List (List Char)),
      splitLoop runes rest i cur acc = acc ++ specChop runes rest i cur := by
  intro rest
  induction rest with
  | nil =>
    intro i cur acc
    by_cases hc : cur = [] <;>
      simp [splitLoop, specChop, hc, List.isEmpty_iff]
  | cons r rest ih =>
    intro i cur acc
    rw [splitLoop, specChop, boundaryAt_eq_specBoundary]
    by_cases hb : specBoundary runes i = true
    · simp only [hb, if_true, ih]
      simp
    · simp only [Bool.not_eq_true] at hb
      simp only [hb, if_false, Bool.false_eq_true, ih]

theorem splitIntoSentences_eq_specSplit (runes : List Char) :
    splitIntoSentences runes = specSplit runes := by
  rw [splitIntoSentences, specSplit, splitLoop_eq_specChop, List.nil_append]

/-! ### Concatenation and single-sentence lemmas -/

theorem specChop_flatten (runes : List Char) :
    ∀ (rest : List Char) (i : Nat) (cur : List Char),
      (specChop runes rest i cur).flatten = cur ++ rest := by
  intro rest
  induction rest with
  | nil =>
    intro i cur
    by_cases hc : cur = [] <;> simp [specChop, hc]
  | cons r rest ih =>
    intro i cur
    rw [specChop]
    by_cases hb : specBoundary runes i = true
    · simp [hb, ih]
    · simp only [Bool.not_eq_true] at hb
      simp [hb, ih]

theorem specChop_no_boundary (runes : List Char) :
    ∀ (rest : List Char) (i : Nat) (cur : List Char), rest ≠ [] →
      (∀ k, k + 1 < rest.length → specBoundary runes (i + k) = false) →
      specChop runes rest i cur = [cur ++ rest] := by
  intro rest
  induction rest with
  | nil => intro i cur hne _; exact absurd rfl hne
  | cons r rest ih =>
    intro i cur _ hno
    cases rest with
    | nil =>
      by_cases hb : specBoundary runes i = true <;>
        simp [specChop, hb]
    | cons x xs =>
      have hb0 : specBoundary runes i = false := by
        have := hno 0 (by simp)
        simpa using this
      rw [specChop, hb0]
      simp only [Bool.false_eq_true, if_false]
      rw [ih (i + 1) (cur ++ [r]) (by simp)]
      · simp
      · intro k hk
        have := hno (k + 1) (by simpa using Nat.succ_lt_succ hk)
        have harith : i + (k + 1) = i + 1 + k := by omega
        rwa [harith] at this

theorem string_mk_data (s : String) : String.mk s.data = s := by
  cases s
  rfl

theorem string_join_map_mk :
    ∀ (l : List (List Char)) (a : List Char),
      (l.map String.mk).foldl (· ++ ·) (String.mk a) =
        String.mk (a ++ l.flatten) := by
  intro l
  induction l with
  | nil => intro a; simp
  | cons x xs ih =>
    intro a
    have hstep : String.mk a ++ String.mk x = String.mk (a ++ x) := rfl
    simp only [List.map_cons, List.foldl_cons, hstep, ih, List.flatten]
    simp

/-! ## Claims about the sentence splitter -/

theorem string_empty_mk : ("" : String) = String.mk [] := rfl

theorem string_data_eq_nil {s : String} (h : s.data = []) : s = "" := by
  have hm := string_mk_data s
  rw [h] at hm
  rw [← hm]

/-- C5: for every input string, `splitIntoSentences` splits exactly at the
positions the spec's boundary rule designates (a `.`, `!`, or `?` followed
by whitespace or end-of-input, minus the abbreviation and decimal guards),
with all text after the last boundary returned as the final element; in
particular `splitIntoSentences("The price is 3.14 dollars.")` returns the
input unsplit. -/
theorem splitIntoSentences_refines_spec_rule :
    (∀ s : String, splitIntoSentencesS s = specSplitS s) ∧
    splitIntoSentencesS "The price is 3.14 dollars." =
      ["The price is 3.14 dollars."] := by
  constructor
  · intro s
    rw [splitIntoSentencesS, specSplitS, splitIntoSentences_eq_specSplit]
  · decide

/-- C6: a single complete sentence (sentence-final punctuation forming a
boundary at end-of-input, no earlier boundary) is returned as exactly one
element equal to the input. -/
theorem splitIntoSentences_single_sentence (s : String) (hne : s ≠ "")
    (hlast : specBoundary s.data (s.data.length - 1) = true)
    (hno : ∀ i, i < s.data.length - 1 → specBoundary s.data i = false) :
    splitIntoSentencesS s = [s] := by
  have hd : s.data ≠ [] := fun h => hne (string_data_eq_nil h)
  rw [splitIntoSentencesS, splitIntoSentences_eq_specSplit, specSplit]
  rw [specChop_no_boundary s.data s.data 0 [] hd]
  · simp [string_mk_data]
  · intro k hk
    have hk' : k < s.data.length - 1 := by omega
    simpa using hno k hk'

/-- Witness for C6 at the concrete single sentence `"Hi."`. -/
theorem splitIntoSentences_single_sentence_witness :
    ("Hi." ≠ "" ∧ specBoundary "Hi.".data ("Hi.".data.length - 1) = true ∧
      (∀ i, i < "Hi.".data.length - 1 → specBoundary "Hi.".data i = false)) ∧
    splitIntoSentencesS "Hi." = ["Hi."] :=
  ⟨⟨by decide, by decide, by decide⟩,
    splitIntoSentences_single_sentence "Hi." (by decide) (by decide)
      (by decide)⟩

/-- C7: the abbreviation guard does not suppress the split after `"Dr."`
(the letter before the dot is lowercase), so the input is split there. -/
theorem splitIntoSentences_dr_smith :
    splitIntoSentencesS "Dr. Smith is here." = ["Dr.", " Smith is here."] := by
  decide

/-- C10: the concatenation, in order, of the returned elements is exactly
the input (no character lost, duplicated, reordered, or altered), and the
result is empty exactly when the input is empty. -/
theorem splitIntoSentences_concat (s : String) :
    String.join (splitIntoSentencesS s) = s ∧
    (splitIntoSentencesS s = [] ↔ s = "") := by
  have h1 : splitIntoSentencesS s = (specSplit s.data).map String.mk := by
    rw [splitIntoSentencesS, splitIntoSentences_eq_specSplit]
  have h2 : (specSplit s.data).flatten = s.data := by
    rw [specSplit, specChop_flatten, List.nil_append]
  constructor
  · rw [h1, String.join, string_empty_mk, string_join_map_mk,
      List.nil_append, h2, string_mk_data]
  · constructor
    · intro h
      rw [h1] at h
      have hsp : specSplit s.data = [] := by
        cases hsp : specSplit s.data with
        | nil => rfl
        | cons a as => rw [hsp] at h; simp at h
      rw [hsp] at h2
      exact string_data_eq_nil h2.symm
    · intro h
      subst h
      decide

/-! ## Streaming channel models

The streaming adapters share one channel discipline.  Mutex-protected
critical sections (`h.mu` / `w.mu`) are modelled as atomic actions, so an
execution is a list of actions; individual Go channel operations are
atomic as well. -/

/-- Channel capacity: `make(chan …, 100)` (tts/provider.go lines 118 and
197, stt provider line 144). -/
def chanCapacity : Nat := 100

/-- An OmniVoice TTS stream chunk (`tts.StreamChunk`): audio bytes, the
final-marker flag, and an optional error message. -/
structure TtsChunk where
  audio : List Nat := []
  isFinal : Bool := false
  errMsg : Option String := none
deriving DecidableEq

/-- Producer-side state of one TTS streaming call: the handler's guarded
`closed` flag, whether `chunkCh` has been closed, how many times it has
been closed, the channel buffer, and whether a Go send-on-closed-channel
panic has occurred. -/
structure TtsStreamState where
  handlerClosed : Bool := false
  chClosed : Bool := false
  chCloseCount : Nat := 0
  buf : List TtsChunk := []
  panicked : Bool := false
deriving DecidableEq

def ttsInit : TtsStreamState := {}

/-- Method `ttsCallbackHandler.sendChunk` (tts/provider.go lines 357-371),
executed atomically under `h.mu`: return when the guarded `closed` flag is
set; otherwise the `select` sends when the channel has space, gives up on
context cancellation, and drops the chunk when the channel is full
(`default` arm).  A send attempted while the channel is closed is a Go
panic, even inside a `select`. -/
def sendChunk (ctxDone : Bool) (st : TtsStreamState) (c : TtsChunk) :
    TtsStreamState :=
  if st.handlerClosed then st
  else if st.chClosed then { st with panicked := true }
  else if ctxDone then st
  else if st.buf.length < chanCapacity then { st with buf := st.buf ++ [c] }
  else st

/-- The guarded close in the goroutine defer of `SynthesizeStream` /
`SynthesizeFromReader` (tts/provider.go lines 141-148 and 220-227),
executed atomically under `handler.mu`: close `chunkCh` only when the
guarded flag is still unset, setting it. -/
def ttsDeferClose (st : TtsStreamState) : TtsStreamState :=
  if st.handlerClosed then st
  else { st with
    handlerClosed := true
    chClosed := true
    chCloseCount := st.chCloseCount + 1 }

/-- Actions of the TTS producer side: the goroutine defer's guarded close,
and a callback invoking `sendChunk`. -/
inductive TtsAct where
  | deferClose : TtsAct
  | send (ctxDone : Bool) (c : TtsChunk) : TtsAct
deriving DecidableEq

def ttsStep (st : TtsStreamState) (a : TtsAct) : TtsStreamState :=
  match a with
  | .deferClose => ttsDeferClose st
  | .send d c => sendChunk d st c

/-- Run an interleaving of TTS producer actions from the initial state. -/
def ttsRun (acts : List TtsAct) : TtsStreamState :=
  acts.foldl ttsStep ttsInit

/-- An OmniVoice STT stream event (`stt.StreamEvent`), abstracted to its
variant. -/
inductive SttEventType where
  | transcript | speechStart | speechEnd | errorEvent
deriving DecidableEq

structure SttEvent where
  eventType : SttEventType
  isFinal : Bool := false
deriving DecidableEq

/-- State of one STT streaming call: `streamWriter.closed` (guarded by
`w.mu`), the close-effect counters (`client.Stop()`, `close(done)`,
`close(eventCh)`), whether `eventCh` is closed, its buffer, and the panic
flag. -/
structure SttStreamState where
  writerClosed : Bool := false
  stopCount : Nat := 0
  doneClosedCount : Nat := 0
  evChClosedCount : Nat := 0
  evChClosed : Bool := false
  buf : List SttEvent := []
  panicked : Bool := false
deriving DecidableEq

def sttInit : SttStreamState := {}

/-- Method `streamWriter.Close` (stt provider lines 210-227), executed atomically
under `w.mu`: if the guarded flag is already set, return; otherwise set
it, stop the Deepgram client, and close `done` and `eventCh`.  Both the
caller's explicit close and the context-cancellation goroutine (lines
172-178) invoke exactly this guarded routine. -/
def streamWriterClose (st : SttStreamState) : SttStreamState :=
  if st.writerClosed then st
  else { st with
    writerClosed := true
    stopCount := st.stopCount + 1
    doneClosedCount := st.doneClosedCount + 1
    evChClosedCount := st.evChClosedCount + 1
    evChClosed := true }

/-- The send in `callbackHandler.Message` / `SpeechStarted` /
`UtteranceEnd` / `Error` (stt provider lines 282-288, 305-310, 322-327,
348-353): a bare `select` into `eventCh` with a context arm and a
drop-on-full `default` arm — and no closed-flag check of any kind.  A
send attempted while `eventCh` is closed is a Go panic. -/
def callbackSend (ctxDone : Bool) (st : SttStreamState) (e : SttEvent) :
    SttStreamState :=
  if st.evChClosed then { st with panicked := true }
  else if ctxDone then st
  else if st.buf.length < chanCapacity then { st with buf := st.buf ++ [e] }
  else st

/-- Actions of the STT adapter: a close of the writer (from the caller or
from the cancellation goroutine) and a provider callback's send. -/
inductive SttAct where
  | closeWriter : SttAct
  | callback (ctxDone : Bool) (e : SttEvent) : SttAct
deriving DecidableEq

def sttStep (st : SttStreamState) (a : SttAct) : SttStreamState :=
  match a with
  | .closeWriter => streamWriterClose st
  | .callback d e => callbackSend d st e

/-- Run an interleaving of STT adapter actions from the initial state. -/
def sttRun (acts : List SttAct) : SttStreamState :=
  acts.foldl sttStep sttInit

/-! ## C1: guarded sends vs. channel close -/

/-- Invariant of the TTS producer side: no panic has occurred, and the
channel is only ever closed with the guarded flag already set. -/
def ttsInv (st : TtsStreamState) : Prop :=
  st.panicked = false ∧ (st.chClosed = true → st.handlerClosed = true)

theorem ttsStep_inv {st : TtsStreamState} (h : ttsInv st) (a : TtsAct) :
    ttsInv (ttsStep st a) := by
  obtain ⟨hp, hc⟩ := h
  cases a with
  | deferClose =>
    simp only [ttsStep, ttsDeferClose]
    split
    · exact ⟨hp, hc⟩
    · exact ⟨hp, fun _ => rfl⟩
  | send d c =>
    simp only [ttsStep, sendChunk]
    split
    · exact ⟨hp, hc⟩
    · next h1 =>
      split
      · next h2 => exact absurd (hc h2) (by simpa using h1)
      · split
        · exact ⟨hp, hc⟩
        · split
          · exact ⟨hp, hc⟩
          · exact ⟨hp, hc⟩

theorem ttsFoldInv :
    ∀ (acts : List TtsAct) (st : TtsStreamState), ttsInv st →
      ttsInv (acts.foldl ttsStep st) := by
  intro acts
  induction acts with
  | nil => intro st h; exact h
  | cons a as ih => intro st h; exact ih _ (ttsStep_inv h a)

/-- C1 [code bug in the STT path]: the invariant "a guarded `closed` flag
is checked under a mutex before every send, so no send is attempted after
the channel is closed" holds on the TTS side — for every interleaving of
the guarded goroutine close and `sendChunk` callbacks, no
send-on-closed-channel panic occurs — but fails on the STT side:
`callbackHandler` has no closed flag at all, and the schedule
"`streamWriter.Close` completes, then a provider callback fires" attempts
a send on the already-closed `eventCh`, a Go panic. -/
theorem guardedSend_tts_safe_stt_panics :
    (∀ acts : List TtsAct, (ttsRun acts).panicked = false) ∧
    (sttRun [SttAct.closeWriter,
        SttAct.callback false { eventType := SttEventType.transcript }]).panicked
      = true := by
  constructor
  · intro acts
    exact (ttsFoldInv acts ttsInit ⟨rfl, fun h => absurd h (by decide)⟩).1
  · decide

/-! ## C2: the channel closes exactly once -/

/-- C2: however many serialized times (at least one) the two shutdown
trigger paths invoke the guarded close routine — caller close and
context-cancellation goroutine both call `streamWriter.Close` in STT; the
goroutine defer closes in TTS — `close(eventCh)`, `client.Stop()`,
`close(done)` and `close(chunkCh)` each happen exactly once. -/
theorem close_exactly_once (k : Nat) (hk : 1 ≤ k) :
    ((streamWriterClose^[k]) sttInit).evChClosedCount = 1 ∧
    ((streamWriterClose^[k]) sttInit).stopCount = 1 ∧
    ((streamWriterClose^[k]) sttInit).doneClosedCount = 1 ∧
    ((ttsDeferClose^[k]) ttsInit).chCloseCount = 1 := by
  obtain ⟨j, rfl⟩ : ∃ j, k = j + 1 := ⟨k - 1, by omega⟩
  have hs : streamWriterClose (streamWriterClose sttInit) =
      streamWriterClose sttInit := by decide
  have ht : ttsDeferClose (ttsDeferClose ttsInit) = ttsDeferClose ttsInit := by
    decide
  rw [Function.iterate_succ_apply, Function.iterate_succ_apply,
    Function.iterate_fixed hs j, Function.iterate_fixed ht j]
  decide

/-- Witness for C2 with both trigger paths firing (two serialized
invocations of the guarded close). -/
theorem close_exactly_once_witness :
    1 ≤ 2 ∧
    (((streamWriterClose^[2]) sttInit).evChClosedCount = 1 ∧
      ((streamWriterClose^[2]) sttInit).stopCount = 1 ∧
      ((streamWriterClose^[2]) sttInit).doneClosedCount = 1 ∧
      ((ttsDeferClose^[2]) ttsInit).chCloseCount = 1) :=
  ⟨by decide, close_exactly_once 2 (by decide)⟩

/-! ## C8: bounded channel, drop-on-full -/

theorem sendChunk_foldl :
    ∀ (offered : List TtsChunk) (buf : List TtsChunk),
      offered.foldl (fun st c => sendChunk false st c)
          { ttsInit with buf := buf } =
        { ttsInit with buf := buf ++ offered.take (chanCapacity - buf.length) } := by
  intro offered
  induction offered with
  | nil => intro buf; simp
  | cons c cs ih =>
    intro buf
    simp only [List.foldl_cons]
    by_cases hlen : buf.length < chanCapacity
    · have hstep : sendChunk false { ttsInit with buf := buf } c =
          { ttsInit with buf := buf ++ [c] } := by
        simp [sendChunk, ttsInit, hlen]
      rw [hstep, ih]
      have harith : chanCapacity - buf.length =
          (chanCapacity - (buf.length + 1)) + 1 := by omega
      rw [harith, List.take_succ_cons]
      simp
    · have hstep : sendChunk false { ttsInit with buf := buf } c =
          { ttsInit with buf := buf } := by
        simp [sendChunk, ttsInit, hlen]
      have hz : chanCapacity - buf.length = 0 := by omega
      rw [hstep, ih, hz]
      simp [hz]

theorem callbackSend_foldl :
    ∀ (evs : List SttEvent) (buf : List SttEvent),
      evs.foldl (fun st e => callbackSend false st e)
          { sttInit with buf := buf } =
        { sttInit with buf := buf ++ evs.take (chanCapacity - buf.length) } := by
  intro evs
  induction evs with
  | nil => intro buf; simp
  | cons e es ih =>
    intro buf
    simp only [List.foldl_cons]
    by_cases hlen : buf.length < chanCapacity
    · have hstep : callbackSend false { sttInit with buf := buf } e =
          { sttInit with buf := buf ++ [e] } := by
        simp [callbackSend, sttInit, hlen]
      rw [hstep, ih]
      have harith : chanCapacity - buf.length =
          (chanCapacity - (buf.length + 1)) + 1 := by omega
      rw [harith, List.take_succ_cons]
      simp
    · have hstep : callbackSend false { sttInit with buf := buf } e =
          { sttInit with buf := buf } := by
        simp [callbackSend, sttInit, hlen]
      have hz : chanCapacity - buf.length = 0 := by omega
      rw [hstep, ih, hz]
      simp [hz]

/-- C8: a producer offering any sequence of items with no consumer reading
(and no cancellation) never panics and never blocks — `sendChunk` and the
STT callback send are total non-blocking steps: the first
`chanCapacity = 100` items are retained in order and every item offered
while the channel is full is silently dropped. -/
theorem bounded_channel_drops (offered : List TtsChunk) (evs : List SttEvent) :
    ((offered.foldl (fun st c => sendChunk false st c) ttsInit).buf =
        offered.take chanCapacity) ∧
    ((offered.foldl (fun st c => sendChunk false st c) ttsInit).panicked
        = false) ∧
    ((evs.foldl (fun st e => callbackSend false st e) sttInit).buf =
        evs.take chanCapacity) ∧
    ((evs.foldl (fun st e => callbackSend false st e) sttInit).panicked
        = false) := by
  have e1 : ({ ttsInit with buf := [] } : TtsStreamState) = ttsInit := rfl
  have e2 : ({ sttInit with buf := [] } : SttStreamState) = sttInit := rfl
  have h1 := sendChunk_foldl offered []
  have h2 := callbackSend_foldl evs []
  rw [e1] at h1
  rw [e2] at h2
  rw [h1, h2]
  simp
  exact ⟨rfl, rfl⟩

/-! ## C9: writes after close -/

/-- The `streamWriter` write-side state: the guarded `closed` flag and the
byte slices forwarded to the Deepgram client session. -/
structure WriterState where
  closed : Bool := false
  sessionWrites : List (List Nat) := []
deriving DecidableEq

/-- Method `streamWriter.Write` (stt provider lines 199-208): under `w.mu`, a
closed writer returns `0, io.ErrClosedPipe` without touching the session;
otherwise the bytes are forwarded to `w.client.Write` (modelled as the
session accepting them and reporting their length).  Result: (new state,
bytes written, whether the closed-pipe error was returned). -/
def streamWriterWrite (st : WriterState) (p : List Nat) :
    WriterState × Nat × Bool :=
  if st.closed then (st, 0, true)
  else ({ st with sessionWrites := st.sessionWrites ++ [p] }, p.length, false)

/-- C9: every `Write` after the writer is closed returns the closed-pipe
error and writes zero bytes to the underlying session; a `Write` before
closing is forwarded to the session. -/
theorem write_after_close (st : WriterState) (p : List Nat) :
    (st.closed = true → streamWriterWrite st p = (st, 0, true)) ∧
    (st.closed = false →
      (streamWriterWrite st p).1.sessionWrites = st.sessionWrites ++ [p] ∧
      (streamWriterWrite st p).2.2 = false) := by
  constructor <;> intro h <;> simp [streamWriterWrite, h]

/-- Witness for C9: a concrete closed writer rejects a write; a concrete
open writer forwards it. -/
theorem write_after_close_witness :
    (({ closed := true } : WriterState).closed = true ∧
      streamWriterWrite { closed := true } [1, 2] =
        ({ closed := true }, 0, true)) ∧
    (({ closed := false } : WriterState).closed = false ∧
      (streamWriterWrite { closed := false } [1, 2]).1.sessionWrites =
          ({ closed := false } : WriterState).sessionWrites ++ [[1, 2]] ∧
      (streamWriterWrite { closed := false } [1, 2]).2.2 = false) :=
  ⟨⟨rfl, (write_after_close { closed := true } [1, 2]).1 rfl⟩,
   ⟨rfl, (write_after_close { closed := false } [1, 2]).2 rfl⟩⟩

/-! ## C3: the final marker -/

/-- Go `strings.TrimSpace` on a rune list (whitespace stripped from both
ends). -/
def trimSpace (s : List Char) : List Char :=
  ((s.dropWhile Char.isWhitespace).reverse.dropWhile Char.isWhitespace).reverse

/-- An operation issued on the Deepgram speak session:
`wsClient.SpeakWithText` or `wsClient.Flush`. -/
inductive SessionOp where
  | speakText (t : List Char) : SessionOp
  | flushRequest : SessionOp
deriving DecidableEq

def SessionOp.isFlush : SessionOp → Bool
  | .flushRequest => true
  | _ => false

/-- Session operations issued by the `SynthesizeStream` goroutine
(tts/provider.go lines 150-161): send the whole text; if that did not
fail, issue one flush. -/
def synthesizeStreamOps (text : List Char) (speakErr : Bool) :
    List SessionOp :=
  if speakErr then [SessionOp.speakText text]
  else [SessionOp.speakText text, SessionOp.flushRequest]

/-- Lines 258-277 of `SynthesizeFromReader`: split the accumulated buffer;
when more than one element results, send every complete sentence but the
last (trimmed, skipping empties) and keep the last element as the new
buffer. -/
def processBuffer (buffer : List Char) : List SessionOp × List Char :=
  let sentences := splitIntoSentences buffer
  if 1 < sentences.length then
    (sentences.dropLast.filterMap (fun sen =>
        if trimSpace sen = [] then none
        else some (SessionOp.speakText (trimSpace sen))),
      sentences.getLastD [])
  else
    ([], buffer)

/-- The `SynthesizeFromReader` worker loop (lines 234-297) as the list of
session operations it issues on the error-free execution.  `cancel k`
tells whether `ctx.Done()` is observed at iteration `k`; `chunks` are the
successive `ReadString` results (mid-stream reads from `bufio` are
non-empty), end-of-input modelled as a final empty read returning
`io.EOF`.  Both terminal branches — cancellation (lines
236-249) and EOF (lines 280-295) — send the remaining trimmed buffer if
non-empty and then issue exactly one flush. -/
def readerLoopOps (cancel : Nat → Bool) :
    List (List Char) → Nat → List Char → List SessionOp
  | chunks, k, buffer =>
    if cancel k then
      (if trimSpace buffer = [] then []
       else [SessionOp.speakText (trimSpace buffer)]) ++
        [SessionOp.flushRequest]
    else
      match chunks with
      | [] =>
        (if trimSpace buffer = [] then []
         else [SessionOp.speakText (trimSpace buffer)]) ++
          [SessionOp.flushRequest]
      | c :: rest =>
        (processBuffer (buffer ++ c)).1 ++
          readerLoopOps cancel rest (k + 1) (processBuffer (buffer ++ c)).2

/-- Events delivered by the Deepgram speak WebSocket to the callback
handler (`wsinterfaces`). -/
inductive ProviderEvent where
  | opened | metadata | cleared | warning | closedConn
  | binaryData (d : List Nat) : ProviderEvent
  | flushed : ProviderEvent
  | errored (msg : List Char) : ProviderEvent
deriving DecidableEq

def ProviderEvent.isFlushedEvent : ProviderEvent → Bool
  | .flushed => true
  | _ => false

def ProviderEvent.isErrorEvent : ProviderEvent → Bool
  | .errored _ => true
  | _ => false

/-- The `ttsCallbackHandler` dispatch (tts/provider.go lines 373-430):
`Binary` sends an audio chunk, `Flush` sends the final marker
(`IsFinal: true`, line 386), `Error` sends an error chunk; every other
callback sends nothing. -/
def chunkOfEvent : ProviderEvent → Option TtsChunk
  | .binaryData d => some { audio := d }
  | .flushed => some { isFinal := true }
  | .errored m => some { errMsg := some (String.mk m) }
  | _ => none

/-- The chunk sequence enqueued on `chunkCh` when the provider delivers
`events` in order, for a run in which no send is dropped (consumer keeps
the bounded channel from filling, context not cancelled). -/
def producedChunks (events : List ProviderEvent) : List TtsChunk :=
  events.filterMap chunkOfEvent

theorem producedChunks_final_count (events : List ProviderEvent) :
    (producedChunks events).countP (fun c => c.isFinal) =
      events.countP ProviderEvent.isFlushedEvent := by
  induction events with
  | nil => rfl
  | cons e es ih =>
    rw [producedChunks] at ih
    cases e <;>
      simp [producedChunks, chunkOfEvent, List.countP_cons,
        ProviderEvent.isFlushedEvent, ih]

theorem processBuffer_no_flush (buffer : List Char) :
    (processBuffer buffer).1.countP SessionOp.isFlush = 0 := by
  rw [List.countP_eq_zero]
  intro op hop
  rw [processBuffer] at hop
  by_cases hl : 1 < (splitIntoSentences buffer).length
  · simp only [hl, if_true] at hop
    obtain ⟨sen, _, hsen⟩ := List.mem_filterMap.mp hop
    by_cases ht : trimSpace sen = []
    · simp [ht] at hsen
    · simp only [ht, if_false] at hsen
      cases hsen
      simp [SessionOp.isFlush]
  · simp [hl] at hop

theorem readerLoopOps_one_flush (cancel : Nat → Bool) :
    ∀ (chunks : List (List Char)) (k : Nat) (buffer : List Char),
      (readerLoopOps cancel chunks k buffer).countP SessionOp.isFlush = 1 := by
  intro chunks
  induction chunks with
  | nil =>
    intro k buffer
    rw [readerLoopOps]
    by_cases hc : cancel k = true <;>
      by_cases ht : trimSpace buffer = [] <;>
        simp [hc, ht, List.countP_append, List.countP_cons, SessionOp.isFlush]
  | cons c rest ih =>
    intro k buffer
    rw [readerLoopOps]
    by_cases hc : cancel k = true
    · by_cases ht : trimSpace buffer = [] <;>
        simp [hc, ht, List.countP_append, List.countP_cons, SessionOp.isFlush]
    · simp only [hc, Bool.false_eq_true, if_false, List.countP_append,
        processBuffer_no_flush, ih]

/-- C3: at most one final marker per TTS streaming call, and on graceful
completion it precedes closure as the last item.  Conjuncts: (1) the
`SynthesizeFromReader` worker issues exactly one flush request on every
input and cancellation schedule; (2) the `SynthesizeStream` goroutine
issues at most one; (3) only the flush acknowledgement produces an
`IsFinal` chunk, so when the provider acknowledges each flush request at
most once the chunk stream carries at most one final marker; (4) on
graceful completion — the provider event stream ends with the flush
acknowledgement and contains no error — the final marker is the last
chunk enqueued before the channel is closed. -/
theorem final_marker_once :
    (∀ (cancel : Nat → Bool) (chunks : List (List Char)) (k : Nat)
        (buffer : List Char),
      (readerLoopOps cancel chunks k buffer).countP SessionOp.isFlush = 1) ∧
    (∀ (text : List Char) (speakErr : Bool),
      (synthesizeStreamOps text speakErr).countP SessionOp.isFlush ≤ 1) ∧
    (∀ events : List ProviderEvent,
      events.countP ProviderEvent.isFlushedEvent ≤ 1 →
      (producedChunks events).countP (fun c => c.isFinal) ≤ 1) ∧
    (∀ events : List ProviderEvent,
      events.getLast? = some ProviderEvent.flushed →
      (∀ e ∈ events, e.isErrorEvent = false) →
      (producedChunks events).getLast? =
        some { isFinal := true, audio := [], errMsg := none }) := by
  refine ⟨readerLoopOps_one_flush, ?_, ?_, ?_⟩
  · intro text speakErr
    cases speakErr <;>
      simp [synthesizeStreamOps, List.countP_cons, SessionOp.isFlush]
  · intro events h
    rw [producedChunks_final_count]
    exact h
  · intro events hlast _
    obtain ⟨m, rfl⟩ := List.getLast?_eq_some_iff.mp hlast
    rw [producedChunks, List.filterMap_append]
    simp [chunkOfEvent]

/-- Witness for C3 at a concrete graceful event stream (one audio chunk,
then the flush acknowledgement). -/
theorem final_marker_once_witness :
    ([ProviderEvent.binaryData [7],
        ProviderEvent.flushed].countP ProviderEvent.isFlushedEvent ≤ 1 ∧
      (producedChunks [ProviderEvent.binaryData [7],
        ProviderEvent.flushed]).countP (fun c => c.isFinal) ≤ 1) ∧
    ([ProviderEvent.binaryData [7], ProviderEvent.flushed].getLast? =
        some ProviderEvent.flushed ∧
      (∀ e ∈ [ProviderEvent.binaryData [7], ProviderEvent.flushed],
        e.isErrorEvent = false) ∧
      (producedChunks [ProviderEvent.binaryData [7],
        ProviderEvent.flushed]).getLast? =
        some { isFinal := true, audio := [], errMsg := none }) :=
  ⟨⟨by decide, final_marker_once.2.2.1 _ (by decide)⟩,
   ⟨by decide, by decide,
     final_marker_once.2.2.2 _ (by decide) (by decide)⟩⟩

/-! ## C4: connection failure -/

/-- Observable steps of a streaming operation's connection prologue. -/
inductive InitStep where
  | createChannel | closeChannel | spawnWorker | sendItem
  | returnErr | returnOk
deriving DecidableEq

/-- The `SynthesizeStream` prologue (tts/provider.go lines 114-167): make the
channel; create the WebSocket client (may fail); `Connect` (may return
false); on either failure close the channel and return the error
synchronously; on success spawn the sender goroutine and return the
channel.  No step sends an item. -/
def synthesizeStreamInit (clientErr : Bool) (connectOk : Bool) :
    List InitStep :=
  [InitStep.createChannel] ++
    (if clientErr then [InitStep.closeChannel, InitStep.returnErr]
     else if !connectOk then [InitStep.closeChannel, InitStep.returnErr]
     else [InitStep.spawnWorker, InitStep.returnOk])

/-- The `SynthesizeFromReader` prologue (tts/provider.go lines 193-216): same
shape as `SynthesizeStream`. -/
def synthesizeFromReaderInit (clientErr : Bool) (connectOk : Bool) :
    List InitStep :=
  [InitStep.createChannel] ++
    (if clientErr then [InitStep.closeChannel, InitStep.returnErr]
     else if !connectOk then [InitStep.closeChannel, InitStep.returnErr]
     else [InitStep.spawnWorker, InitStep.returnOk])

/-- The `TranscribeStream` prologue (stt provider lines 136-181): make the
channel; create the WebSocket client (may fail); `Connect` (may return
false); on either failure close `eventCh` and return the error
synchronously; on success spawn the cancellation-watch goroutine and
return the writer and channel. -/
def transcribeStreamInit (clientErr : Bool) (connectOk : Bool) :
    List InitStep :=
  [InitStep.createChannel] ++
    (if clientErr then [InitStep.closeChannel, InitStep.returnErr]
     else if !connectOk then [InitStep.closeChannel, InitStep.returnErr]
     else [InitStep.spawnWorker, InitStep.returnOk])

/-- C4: when establishing the connection fails (client creation error or
`Connect` returning false), each of the three streaming operations closes
its channel and then returns the error synchronously — the trace is
exactly create, close, return-error: no item is ever sent into the
channel and no producer goroutine is spawned, so connection-time errors
never appear as items in the channel. -/
theorem connect_failure_sync_error (clientErr connectOk : Bool)
    (h : clientErr = true ∨ connectOk = false) :
    synthesizeStreamInit clientErr connectOk =
      [InitStep.createChannel, InitStep.closeChannel, InitStep.returnErr] ∧
    synthesizeFromReaderInit clientErr connectOk =
      [InitStep.createChannel, InitStep.closeChannel, InitStep.returnErr] ∧
    transcribeStreamInit clientErr connectOk =
      [InitStep.createChannel, InitStep.closeChannel, InitStep.returnErr] := by
  rcases h with h | h
  · subst h
    cases connectOk <;> decide
  · subst h
    cases clientErr <;> decide

/-- Witness for C4 at a concrete failing connection (`Connect` returns
false). -/
theorem connect_failure_sync_error_witness :
    ((false : Bool) = true ∨ (false : Bool) = false) ∧
    (synthesizeStreamInit false false =
      [InitStep.createChannel, InitStep.closeChannel, InitStep.returnErr] ∧
    synthesizeFromReaderInit false false =
      [InitStep.createChannel, InitStep.closeChannel, InitStep.returnErr] ∧
    transcribeStreamInit false false =
      [InitStep.createChannel, InitStep.closeChannel, InitStep.returnErr]) :=
  ⟨Or.inr rfl, connect_failure_sync_error false false (Or.inr rfl)⟩

end OmniVoiceDeepgram
